import Mathlib

/-!
Facial-asymmetry screening demo: feature extraction, aggregation, capture session.

A shallow embedding of `src/app.js`.

JavaScript numbers are modelled by an arbitrary linearly ordered field `α` with a floor
function (exact arithmetic, no rounding error, no NaN or Infinity); `Math.sqrt` is a
parameter `sqrt : α → α` of every function that calls it.  Instantiating `α := ℚ` gives
executable definitions; instantiating `α := ℝ` and `sqrt := Real.sqrt` gives the
real-number reading used for the geometric statements.

The scoring and feature functions are also given in double precision (`computeFeaturesD`,
`aggregateScoreD`), over a model of IEEE 754 binary64 rounding; these are used to
evaluate the code on concrete inputs where rounding changes the result.
-/

namespace StrokeDemo

/-! ## Constants (`src/app.js` lines 22-28) -/

def LEFT_MOUTH : Nat := 61
def RIGHT_MOUTH : Nat := 291
def LEFT_EYE_LEFT : Nat := 33
def LEFT_EYE_RIGHT : Nat := 133
def RIGHT_EYE_LEFT : Nat := 362
def RIGHT_EYE_RIGHT : Nat := 263
def NOSE_TIP : Nat := 1

/-! ## Data model -/

/-- A landmark point `{x, y, z}`. -/
structure Point (α : Type) where
  x : α
  y : α
  z : α

/-- The object `{mouthAsym, gazeAsym, mouthWidth, faceScale}` returned by `computeFeatures`. -/
structure Features (α : Type) where
  mouthAsym : α
  gazeAsym : α
  mouthWidth : α
  faceScale : α

/-- The `details` object of the value returned by `aggregateScore`. -/
structure Details (α : Type) where
  mouthAsymMean : α
  gazeMean : α
  mouthWidthMean : α
  mouthAsymStd : α

/-- The object `{normalized, details}` returned by `aggregateScore`. -/
structure Aggregate (α : Type) where
  normalized : ℤ
  details : Details α

section Numeric

variable {α : Type} [LinearOrderedField α] [FloorRing α]

/-- `Math.round`: the nearest integer, a tie going up. -/
def jsRound (x : α) : ℤ := ⌊x + 1 / 2⌋

/-- The JavaScript expression `v || d` on numbers: `d` when `v` is zero, else `v`. -/
def orElse (v d : α) : α := if v = 0 then d else v

/-! ## `normDistance` and `computeFeatures` (lines 30-62) -/

def normDistance (sqrt : α → α) (a b : Point α) : α :=
  let dx := a.x - b.x
  let dy := a.y - b.y
  sqrt (dx * dx + dy * dy)

/-- `computeFeatures`; `none` stands for the `TypeError` raised when one of the indexed
landmarks is `undefined`.  The eye centers, objects `{x, y}` in the source, are points
whose `z` is never read. -/
def computeFeatures (sqrt : α → α) (landmarks : List (Point α)) : Option (Features α) := do
  let lm := landmarks
  let leftM ← lm[LEFT_MOUTH]?
  let rightM ← lm[RIGHT_MOUTH]?
  let nose ← lm[NOSE_TIP]?
  let lel ← lm[LEFT_EYE_LEFT]?
  let ler ← lm[LEFT_EYE_RIGHT]?
  let leftEyeCenter : Point α := ⟨(lel.x + ler.x) / 2, (lel.y + ler.y) / 2, 0⟩
  let rel ← lm[RIGHT_EYE_LEFT]?
  let rer ← lm[RIGHT_EYE_RIGHT]?
  let rightEyeCenter : Point α := ⟨(rel.x + rer.x) / 2, (rel.y + rer.y) / 2, 0⟩
  let faceScale := orElse (normDistance sqrt leftEyeCenter rightEyeCenter) (1 / 1000000)
  let leftOffsetY := (leftM.y - nose.y) / faceScale
  let rightOffsetY := (rightM.y - nose.y) / faceScale
  let mouthAsym := leftOffsetY - rightOffsetY
  let leftEyeDx := (leftEyeCenter.x - nose.x) / faceScale
  let rightEyeDx := (rightEyeCenter.x - nose.x) / faceScale
  let gazeAsym := leftEyeDx - rightEyeDx
  let mouthWidth := normDistance sqrt leftM rightM / faceScale
  pure ⟨mouthAsym, gazeAsym, mouthWidth, faceScale⟩

/-! ## `aggregateScore` (lines 64-84) -/

/-- The local `mean = arr => arr.reduce((a,b) => a+b, 0) / arr.length`. -/
def mean (arr : List α) : α :=
  arr.foldl (fun a b => a + b) 0 / (arr.length : α)

/-- The local `std`. -/
def std (sqrt : α → α) (arr : List α) : α :=
  let m := mean arr
  sqrt (arr.foldl (fun s x => s + (x - m) * (x - m)) 0 / (arr.length : α))

/-- The local `score` of `aggregateScore` (line 79); 2.5, 1.5, 0.6 and 1.0 are written
as fractions. -/
def score (featuresList : List (Features α)) : α :=
  let mouthAsy := featuresList.map (fun f => f.mouthAsym)
  let gaze := featuresList.map (fun f => f.gazeAsym)
  let widths := featuresList.map (fun f => f.mouthWidth)
  |mean mouthAsy| * (5 / 2) + |mean gaze| * (3 / 2) + (3 / 5 - mean widths) * 1

/-- The local `raw` of `aggregateScore` (line 81). -/
def raw (featuresList : List (Features α)) : α :=
  max 0 (score featuresList)

/-- The local `normalized` of `aggregateScore` (line 82). -/
def normalized (featuresList : List (Features α)) : ℤ :=
  min 100 (jsRound (raw featuresList * 35))

/-- `aggregateScore`; `none` is JavaScript `null`. -/
def aggregateScore (sqrt : α → α) (featuresList : List (Features α)) :
    Option (Aggregate α) :=
  if featuresList.length = 0 then none
  else
    let mouthAsy := featuresList.map (fun f => f.mouthAsym)
    let gaze := featuresList.map (fun f => f.gazeAsym)
    let widths := featuresList.map (fun f => f.mouthWidth)
    some ⟨normalized featuresList,
      ⟨mean mouthAsy, mean gaze, mean widths, std sqrt mouthAsy⟩⟩

/-! ## The score as the specification words it -/

/-- The arithmetic mean of the specification: the sum divided by the count. -/
def specMean (arr : List α) : α := arr.sum / (arr.length : α)

/-- The specification's `rawScore`, whose mouth-width term is `max(0, 0.6 - mean(mouthWidth))`. -/
def specRawScore (featuresList : List (Features α)) : α :=
  |specMean (featuresList.map (fun f => f.mouthAsym))| * (5 / 2)
    + |specMean (featuresList.map (fun f => f.gazeAsym))| * (3 / 2)
    + max 0 (3 / 5 - specMean (featuresList.map (fun f => f.mouthWidth))) * 1

/-- The specification's final score `min(100, round(35 * max(0, rawScore)))`. -/
def specNormalized (featuresList : List (Features α)) : ℤ :=
  min 100 (jsRound (35 * max 0 (specRawScore featuresList)))

/-! ## Tier selection and `evaluateCollected` (lines 180-211) -/

/-- The three advisory tiers. -/
inductive Tier where
  | high
  | moderate
  | low
  deriving DecidableEq, Repr

/-- The chain `if (s >= 60) … else if (s >= 35) … else …` (lines 194-200). -/
def tierOf (s : ℤ) : Tier :=
  if s ≥ 60 then Tier.high
  else if s ≥ 35 then Tier.moderate
  else Tier.low

/-- The text assigned to `adviceP.innerHTML` in each branch of the chain. -/
def adviceHtml : Tier → String
  | Tier.high => "<strong style=\"color:#a11\">High risk flag</strong> — Suggest immediate medical evaluation. If sudden onset, call emergency services."
  | Tier.moderate => "<strong style=\"color:#d67\">Moderate risk</strong> — Recommend contacting a clinician for evaluation."
  | Tier.low => "<strong style=\"color:#2a7\">Low risk</strong> — No immediate alarm; if symptoms persist or are sudden, seek medical care."

/-- The object stored in `window._lastReport`. -/
structure Report (α : Type) where
  timestamp : String
  score : ℤ
  details : Details α
  frames : Nat

/-- The mutable state of the page: the script's globals, the DOM properties it writes,
the browser's queue of pending timeouts, and two history fields.

* `pending` holds the ids of the timeouts that were set and have neither fired nor been
  cleared; `nextTimer` is the id the next `setTimeout` returns.
* `aggregations` counts the calls of `aggregateScore` since the last start click and
  `manuallyStopped` records a stop click since the last start click; the program never
  reads either of them. -/
structure State (α : Type) where
  camera : Bool
  collecting : Bool
  collectedResults : List (List (Point α))
  captureTimeout : Option Nat
  startDisabled : Bool
  stopDisabled : Bool
  downloadDisabled : Bool
  scoreText : String
  adviceText : String
  lastReport : Option (Report α)
  pending : List Nat
  nextTimer : Nat
  aggregations : Nat
  manuallyStopped : Bool

/-- `evaluateCollected`; `now` is the value of `new Date().toISOString()`.  A `TypeError`
raised by `computeFeatures` leaves the handler at line 186, before any write. -/
def evaluateCollected (sqrt : α → α) (now : String) (st : State α) : State α :=
  if st.collectedResults.length = 0 then
    { st with scoreText := "No face detected. Try again with better lighting and face the camera." }
  else
    match st.collectedResults.mapM (computeFeatures sqrt) with
    | none => st
    | some features =>
      let st := { st with aggregations := st.aggregations + 1 }
      match aggregateScore sqrt features with
      | none => { st with scoreText := "Insufficient data." }
      | some agg =>
        let s := agg.normalized
        { st with
          scoreText := "Screening score: " ++ toString s ++ " / 100"
          adviceText := adviceHtml (tierOf s)
          downloadDisabled := false
          startDisabled := false
          stopDisabled := true
          lastReport := some ⟨now, s, agg.details, st.collectedResults.length⟩ }

/-! ## The capture session (lines 133-141 and 155-178) -/

/-- What can happen to the page: a click on an enabled button, a pending timeout firing,
or the detector delivering the faces of one frame. -/
inductive Event (α : Type) where
  | start
  | stop (now : String)
  | deadline (id : Nat) (now : String)
  | frame (multiFaceLandmarks : List (List (Point α)))

/-- The `faceMesh.onResults` callback (drawing is not modelled). -/
def onResults (multiFaceLandmarks : List (List (Point α))) (st : State α) : State α :=
  if !st.collecting then st
  else
    match multiFaceLandmarks with
    | [] => st
    | landmarks :: _ =>
      { st with collectedResults := st.collectedResults ++
          [landmarks.map (fun pt => ⟨pt.x, pt.y, orElse pt.z 0⟩)] }

/-- The click handler of `startBtn`.  `startCamera` contains no suspension point, so the
handler resumes after `await` before any other event is dispatched and is one step. -/
def startClick (st : State α) : State α :=
  { st with
    startDisabled := true
    stopDisabled := false
    adviceText := ""
    scoreText := "Collecting 8 seconds of data... Please face camera straight on and keep neutral expression."
    collectedResults := []
    collecting := true
    camera := true
    captureTimeout := some st.nextTimer
    pending := st.pending ++ [st.nextTimer]
    nextTimer := st.nextTimer + 1
    aggregations := 0
    manuallyStopped := false }

/-- `if (captureTimeout) clearTimeout(captureTimeout)`: `null` and `0` are falsy. -/
def clearCapture (captureTimeout : Option Nat) (pending : List Nat) : List Nat :=
  match captureTimeout with
  | none => pending
  | some 0 => pending
  | some id => pending.erase id

/-- The click handler of `stopBtn`. -/
def stopClick (sqrt : α → α) (now : String) (st : State α) : State α :=
  evaluateCollected sqrt now
    { st with
      startDisabled := false
      stopDisabled := true
      collecting := false
      pending := clearCapture st.captureTimeout st.pending
      manuallyStopped := true }

/-- The callback given to `setTimeout` (lines 166-169), run when timeout `id` fires. -/
def deadlineFires (sqrt : α → α) (id : Nat) (now : String) (st : State α) : State α :=
  evaluateCollected sqrt now { st with collecting := false, pending := st.pending.erase id }

/-- One step of the page; `none` when the event cannot happen in `st`: a disabled button
receives no click and only a pending timeout fires. -/
def step (sqrt : α → α) (st : State α) : Event α → Option (State α)
  | Event.start => if st.startDisabled then none else some (startClick st)
  | Event.stop now => if st.stopDisabled then none else some (stopClick sqrt now st)
  | Event.deadline id now =>
    if id ∈ st.pending then some (deadlineFires sqrt id now st) else none
  | Event.frame faces => some (onResults faces st)

/-- The page right after the script has run (lines 15-18); the initial DOM properties come
from the HTML document and are parameters. -/
def initial (startDisabled stopDisabled downloadDisabled : Bool) (scoreText adviceText : String) :
    State α :=
  { camera := false
    collecting := false
    collectedResults := []
    captureTimeout := none
    startDisabled := startDisabled
    stopDisabled := stopDisabled
    downloadDisabled := downloadDisabled
    scoreText := scoreText
    adviceText := adviceText
    lastReport := none
    pending := []
    nextTimer := 1
    aggregations := 0
    manuallyStopped := false }

/-- The states the page can be in after finitely many events. -/
inductive Reachable (sqrt : α → α) : State α → Prop where
  | init (a b c : Bool) (t u : String) : Reachable sqrt (initial a b c t u)
  | next {st st2 : State α} (e : Event α) :
      Reachable sqrt st → step sqrt st e = some st2 → Reachable sqrt st2

/-! ## Statement helpers -/

/-- The invariant of the page: at most one timeout is pending and `captureTimeout` holds
its id; none is pending while the start button is enabled, after an aggregation, or after
a manual stop; and once `aggregateScore` has run the stop button is disabled. -/
structure SessionInv (st : State α) : Prop where
  pending_cases : st.pending = [] ∨
    ∃ id, st.pending = [id] ∧ st.captureTimeout = some id ∧ 1 ≤ id
  nextTimer_pos : 1 ≤ st.nextTimer
  start_enabled : st.startDisabled = false → st.pending = []
  agg_le : st.aggregations ≤ 1
  agg_one : st.aggregations = 1 →
    st.pending = [] ∧ st.stopDisabled = true ∧ st.collecting = false
  stopped : st.manuallyStopped = true → st.pending = [] ∧ st.collecting = false


/-- Landmark `i` of a landmark set (the origin when `i` is out of range). -/
def pt (lm : List (Point α)) (i : Nat) : Point α := lm.getD i ⟨0, 0, 0⟩

/-- The `leftEyeCenter` of `computeFeatures`. -/
def leftEyeCenter (lm : List (Point α)) : Point α :=
  ⟨((pt lm LEFT_EYE_LEFT).x + (pt lm LEFT_EYE_RIGHT).x) / 2,
   ((pt lm LEFT_EYE_LEFT).y + (pt lm LEFT_EYE_RIGHT).y) / 2, 0⟩

/-- The `rightEyeCenter` of `computeFeatures`. -/
def rightEyeCenter (lm : List (Point α)) : Point α :=
  ⟨((pt lm RIGHT_EYE_LEFT).x + (pt lm RIGHT_EYE_RIGHT).x) / 2,
   ((pt lm RIGHT_EYE_LEFT).y + (pt lm RIGHT_EYE_RIGHT).y) / 2, 0⟩

/-- Mouth corners and eye centers are mirror images of each other across the vertical
line through the nose tip: same `y`, opposite `x` offsets from the nose. -/
def Mirrored (lm : List (Point α)) : Prop :=
  (pt lm LEFT_MOUTH).y = (pt lm RIGHT_MOUTH).y ∧
  (pt lm LEFT_MOUTH).x - (pt lm NOSE_TIP).x = -((pt lm RIGHT_MOUTH).x - (pt lm NOSE_TIP).x) ∧
  (leftEyeCenter lm).y = (rightEyeCenter lm).y ∧
  (leftEyeCenter lm).x - (pt lm NOSE_TIP).x = -((rightEyeCenter lm).x - (pt lm NOSE_TIP).x)

/-- A landmark set of 478 points, `d` everywhere except at the seven indexed landmarks. -/
def faceOf (d leftM rightM nose lel ler rel rer : Point α) : List (Point α) :=
  (List.range 478).map (fun i =>
    if i = LEFT_MOUTH then leftM
    else if i = RIGHT_MOUTH then rightM
    else if i = NOSE_TIP then nose
    else if i = LEFT_EYE_LEFT then lel
    else if i = LEFT_EYE_RIGHT then ler
    else if i = RIGHT_EYE_LEFT then rel
    else if i = RIGHT_EYE_RIGHT then rer
    else d)

/-- A level, left-right symmetric face: nose at (0.5, 0.5), eye centers at (0.35, 0.4) and
(0.65, 0.4), mouth corners at (0.4, 0.7) and (0.6, 0.7). -/
def symmetricFace : List (Point α) :=
  faceOf ⟨1 / 2, 1 / 2, 0⟩ ⟨2 / 5, 7 / 10, 0⟩ ⟨3 / 5, 7 / 10, 0⟩ ⟨1 / 2, 1 / 2, 0⟩
    ⟨3 / 10, 2 / 5, 0⟩ ⟨2 / 5, 2 / 5, 0⟩ ⟨3 / 5, 2 / 5, 0⟩ ⟨7 / 10, 2 / 5, 0⟩

/-- A face whose four eye corners all lie at (0.5, 0.4), so that the two eye centers
coincide. -/
def degenerateFace : List (Point α) :=
  faceOf ⟨1 / 2, 1 / 2, 0⟩ ⟨2 / 5, 7 / 10, 0⟩ ⟨3 / 5, 7 / 10, 0⟩ ⟨1 / 2, 1 / 2, 0⟩
    ⟨1 / 2, 2 / 5, 0⟩ ⟨1 / 2, 2 / 5, 0⟩ ⟨1 / 2, 2 / 5, 0⟩ ⟨1 / 2, 2 / 5, 0⟩

end Numeric

/-! ## The same functions in double precision

JavaScript numbers are IEEE 754 binary64 values and every arithmetic operation rounds its
exact result to the nearest one, ties to even.  In this section a finite double is the
rational number it denotes; `toDouble` is the rounding (with gradual underflow), and a
decimal literal such as `0.6` is `toDouble (3 / 5)`.  Overflow, NaN, infinities and the sign
of zero are not modelled: the functions below are meant for arguments that are doubles
and whose results stay in the finite range. -/

section Binary64

/-- Two to the power `e`. -/
def pow2 (e : ℤ) : ℚ :=
  if 0 ≤ e then ((2 ^ e.toNat : ℕ) : ℚ) else 1 / ((2 ^ (-e).toNat : ℕ) : ℚ)

/-- The number of binary digits of `n`, counted with at most `fuel` halvings. -/
def bitLengthAux : ℕ → ℕ → ℕ
  | 0, _ => 0
  | fuel + 1, n => if n = 0 then 0 else bitLengthAux fuel (n / 2) + 1

/-- The number of binary digits of `n`. -/
def bitLength (n : ℕ) : ℕ := bitLengthAux n n

/-- The binary exponent of a non-zero rational: the `e` with `2^e ≤ |q| < 2^(e+1)`. -/
def ilog2 (q : ℚ) : ℤ :=
  let a : ℤ := (bitLength q.num.natAbs : ℤ) - (bitLength q.den : ℤ)
  if pow2 a ≤ |q| then a else a - 1

/-- The nearest integer, a tie going to the even one. -/
def roundHalfEven (q : ℚ) : ℤ :=
  let f := ⌊q⌋
  let r := q - f
  if r < 1 / 2 then f else if 1 / 2 < r then f + 1 else if f % 2 = 0 then f else f + 1

/-- The binary64 value nearest to `q`: 53 significant bits, the unit in the last place
never below `2^(-1074)`. -/
def toDouble (q : ℚ) : ℚ :=
  if q = 0 then 0
  else
    let p := max (ilog2 q - 52) (-1074)
    (roundHalfEven (q / pow2 p) : ℚ) * pow2 p

/-- The digits of the integer square root of `n` below bit `i`, added to `r`. -/
def isqrtAux : ℕ → ℕ → ℕ → ℕ
  | 0, _, r => r
  | i + 1, n, r =>
    if (r + 2 ^ i) * (r + 2 ^ i) ≤ n then isqrtAux i n (r + 2 ^ i) else isqrtAux i n r

/-- The integer square root: the largest `r` with `r * r ≤ n`. -/
def isqrt (n : ℕ) : ℕ := isqrtAux (bitLength n) n 0

/-- `Math.sqrt` on a non-negative double: the binary64 value nearest to the square root
(the IEEE `squareRoot` operation). -/
def sqrtD (q : ℚ) : ℚ :=
  if q ≤ 0 then 0
  else
    let p := ilog2 q / 2 - 52
    let s := q / pow2 (2 * p)
    let m : ℤ := isqrt ⌊s⌋.toNat
    let h : ℚ := (m + 1 / 2) * (m + 1 / 2)
    if s < h then m * pow2 p
    else if h < s then (m + 1) * pow2 p
    else if m % 2 = 0 then m * pow2 p else (m + 1) * pow2 p

/-- The operator `+` on doubles. -/
def addD (a b : ℚ) : ℚ := toDouble (a + b)

/-- The operator `-` on doubles. -/
def subD (a b : ℚ) : ℚ := toDouble (a - b)

/-- The operator `*` on doubles. -/
def mulD (a b : ℚ) : ℚ := toDouble (a * b)

/-- The operator `/` on doubles (`b` non-zero). -/
def divD (a b : ℚ) : ℚ := toDouble (a / b)

/-- `normDistance` in doubles (lines 30-34). -/
def normDistanceD (a b : Point ℚ) : ℚ :=
  let dx := subD a.x b.x
  let dy := subD a.y b.y
  sqrtD (addD (mulD dx dx) (mulD dy dy))

/-- `computeFeatures` in doubles (lines 36-62). -/
def computeFeaturesD (landmarks : List (Point ℚ)) : Option (Features ℚ) := do
  let lm := landmarks
  let leftM ← lm[LEFT_MOUTH]?
  let rightM ← lm[RIGHT_MOUTH]?
  let nose ← lm[NOSE_TIP]?
  let lel ← lm[LEFT_EYE_LEFT]?
  let ler ← lm[LEFT_EYE_RIGHT]?
  let leftEyeCenter : Point ℚ := ⟨divD (addD lel.x ler.x) 2, divD (addD lel.y ler.y) 2, 0⟩
  let rel ← lm[RIGHT_EYE_LEFT]?
  let rer ← lm[RIGHT_EYE_RIGHT]?
  let rightEyeCenter : Point ℚ := ⟨divD (addD rel.x rer.x) 2, divD (addD rel.y rer.y) 2, 0⟩
  let faceScale := orElse (normDistanceD leftEyeCenter rightEyeCenter) (toDouble (1 / 1000000))
  let leftOffsetY := divD (subD leftM.y nose.y) faceScale
  let rightOffsetY := divD (subD rightM.y nose.y) faceScale
  let mouthAsym := subD leftOffsetY rightOffsetY
  let leftEyeDx := divD (subD leftEyeCenter.x nose.x) faceScale
  let rightEyeDx := divD (subD rightEyeCenter.x nose.x) faceScale
  let gazeAsym := subD leftEyeDx rightEyeDx
  let mouthWidth := divD (normDistanceD leftM rightM) faceScale
  pure ⟨mouthAsym, gazeAsym, mouthWidth, faceScale⟩

/-- The local `mean` in doubles: the sum is accumulated left to right (line 73). -/
def meanD (arr : List ℚ) : ℚ :=
  divD (arr.foldl (fun a b => addD a b) 0) (arr.length : ℚ)

/-- The local `std` in doubles (lines 74-77). -/
def stdD (arr : List ℚ) : ℚ :=
  let m := meanD arr
  sqrtD (divD (arr.foldl (fun s x => addD s (mulD (subD x m) (subD x m))) 0) (arr.length : ℚ))

/-- The local `score` in doubles (line 79); `0.6` is the double nearest to 3/5. -/
def scoreD (featuresList : List (Features ℚ)) : ℚ :=
  let mouthAsy := featuresList.map (fun f => f.mouthAsym)
  let gaze := featuresList.map (fun f => f.gazeAsym)
  let widths := featuresList.map (fun f => f.mouthWidth)
  addD (addD (mulD |meanD mouthAsy| (5 / 2)) (mulD |meanD gaze| (3 / 2)))
    (mulD (subD (toDouble (3 / 5)) (meanD widths)) 1)

/-- The local `raw` in doubles (line 81). -/
def rawD (featuresList : List (Features ℚ)) : ℚ :=
  max 0 (scoreD featuresList)

/-- The local `normalized` in doubles (line 82); `Math.round` is exact on a double. -/
def normalizedD (featuresList : List (Features ℚ)) : ℤ :=
  min 100 (jsRound (mulD (rawD featuresList) 35))

/-- `aggregateScore` in doubles (lines 64-84). -/
def aggregateScoreD (featuresList : List (Features ℚ)) : Option (Aggregate ℚ) :=
  if featuresList.length = 0 then none
  else
    let mouthAsy := featuresList.map (fun f => f.mouthAsym)
    let gaze := featuresList.map (fun f => f.gazeAsym)
    let widths := featuresList.map (fun f => f.mouthWidth)
    some ⟨normalizedD featuresList,
      ⟨meanD mouthAsy, meanD gaze, meanD widths, stdD mouthAsy⟩⟩

/-- A level face with dyadic coordinates whose nose tip has abscissa `noseX`: eye corners at
x = 0.25, 0.375, 0.625, 0.75 and y = 0.375, so the eye centers are (0.3125, 0.375) and
(0.6875, 0.375); nose at (`noseX`, 0.5); mouth corners at (0.375, 0.75), (0.625, 0.75). -/
def levelFace (noseX : ℚ) : List (Point ℚ) :=
  faceOf ⟨1 / 2, 1 / 2, 0⟩ ⟨3 / 8, 3 / 4, 0⟩ ⟨5 / 8, 3 / 4, 0⟩ ⟨noseX, 1 / 2, 0⟩
    ⟨1 / 4, 3 / 8, 0⟩ ⟨3 / 8, 3 / 8, 0⟩ ⟨5 / 8, 3 / 8, 0⟩ ⟨3 / 4, 3 / 8, 0⟩

end Binary64

/-! ## Lemmas on the statistics -/

section Stats

variable {α : Type} [LinearOrderedField α]

theorem foldl_add_eq_sum (arr : List α) (a : α) :
    arr.foldl (fun a b => a + b) a = a + arr.sum := by
  induction arr generalizing a with
  | nil => simp
  | cons x xs ih => simp [ih, add_assoc]

theorem mean_eq_specMean (arr : List α) : mean arr = specMean arr := by
  simp [mean, specMean, foldl_add_eq_sum]

theorem foldl_sq_eq_sum (arr : List α) (m s : α) :
    arr.foldl (fun s x => s + (x - m) * (x - m)) s
      = s + (arr.map (fun x => (x - m) * (x - m))).sum := by
  induction arr generalizing s with
  | nil => simp
  | cons x xs ih => simp [ih, add_assoc]

theorem mean_perm {a b : List α} (h : a.Perm b) : mean a = mean b := by
  simp [mean, foldl_add_eq_sum, h.sum_eq, h.length_eq]

theorem std_perm (sqrt : α → α) {a b : List α} (h : a.Perm b) : std sqrt a = std sqrt b := by
  simp only [std, foldl_sq_eq_sum, mean_perm h, h.length_eq, (h.map _).sum_eq]

theorem mean_replicate (n : Nat) (x : α) (hn : 1 ≤ n) : mean (List.replicate n x) = x := by
  have hn0 : (n : α) ≠ 0 := by
    have : (0 : α) < n := by exact_mod_cast hn
    exact ne_of_gt this
  simp [mean, foldl_add_eq_sum, List.sum_replicate]
  field_simp

theorem raw_nonneg (fl : List (Features α)) : 0 ≤ raw fl := le_max_left _ _

theorem score_perm {a b : List (Features α)} (h : a.Perm b) : score a = score b := by
  simp only [score, mean_perm (h.map _)]

theorem score_replicate (n : Nat) (f : Features α) (hn : 1 ≤ n) :
    score (List.replicate n f) = score [f] := by
  have h1 : (1 : Nat) ≤ 1 := le_rfl
  simp only [score, List.map_replicate, mean_replicate n _ hn]
  simp only [← List.replicate_one, List.map_replicate, mean_replicate 1 _ h1]

variable [FloorRing α]

theorem jsRound_nonneg {x : α} (hx : 0 ≤ x) : 0 ≤ jsRound x := by
  unfold jsRound
  apply Int.floor_nonneg.mpr
  linarith

theorem jsRound_mono {x y : α} (h : x ≤ y) : jsRound x ≤ jsRound y := by
  unfold jsRound
  exact Int.floor_le_floor (by linarith)

theorem aggregateScore_of_ne_nil (sqrt : α → α) (fl : List (Features α)) (h : fl ≠ []) :
    aggregateScore sqrt fl = some ⟨normalized fl,
      ⟨mean (fl.map (fun f => f.mouthAsym)), mean (fl.map (fun f => f.gazeAsym)),
       mean (fl.map (fun f => f.mouthWidth)), std sqrt (fl.map (fun f => f.mouthAsym))⟩⟩ := by
  have : fl.length ≠ 0 := by simpa using h
  simp [aggregateScore, this]

end Stats

/-! ## The score of `aggregateScore` -/

section ScoreClaims

variable {α : Type} [LinearOrderedField α] [FloorRing α]

/-- C1 (counterexample): for the single tuple mouthAsym = 0.3, gazeAsym = 0, mouthWidth = 1.6
`aggregateScore` returns the score 0, while the formula with the mouth-width term clamped
at zero gives 26. -/
theorem aggregateScore_width_term_lowers_score :
    Option.map Aggregate.normalized
        (aggregateScore Rat.sqrt [(⟨3 / 10, 0, 8 / 5, 1⟩ : Features ℚ)]) = some 0 ∧
      specNormalized [(⟨3 / 10, 0, 8 / 5, 1⟩ : Features ℚ)] = 26 := by
  constructor
  · norm_num [aggregateScore, normalized, raw, score, mean, jsRound, abs_of_pos]
  · norm_num [specNormalized, specRawScore, specMean, jsRound, abs_of_pos]

/-- C1 (amended): in exact arithmetic, for every non-empty sequence the score is
`min(100, round(35 * max(0, s)))` with
`s = |mean(mouthAsym)| * 2.5 + |mean(gazeAsym)| * 1.5 + (0.6 - mean(mouthWidth)) * 1.0`,
the mouth-width term not clamped; it equals the clamped formula when the mean mouth width
is at most 0.6 and never exceeds it. -/
theorem aggregateScore_normalized_unclamped (sqrt : α → α) (fl : List (Features α))
    (h : fl ≠ []) :
    ∃ r, aggregateScore sqrt fl = some r ∧
      r.normalized = min 100 (jsRound (35 * max 0
        (|specMean (fl.map (fun f => f.mouthAsym))| * (5 / 2)
          + |specMean (fl.map (fun f => f.gazeAsym))| * (3 / 2)
          + (3 / 5 - specMean (fl.map (fun f => f.mouthWidth))) * 1))) ∧
      (specMean (fl.map (fun f => f.mouthWidth)) ≤ 3 / 5 →
        r.normalized = specNormalized fl) ∧
      r.normalized ≤ specNormalized fl := by
  refine ⟨_, aggregateScore_of_ne_nil sqrt fl h, ?_, ?_, ?_⟩
  · simp only [normalized, raw, score, mean_eq_specMean, mul_comm (35 : α)]
  · intro hw
    have hmax : max 0 (3 / 5 - specMean (fl.map (fun f => f.mouthWidth)))
        = 3 / 5 - specMean (fl.map (fun f => f.mouthWidth)) :=
      max_eq_right (by linarith)
    simp only [normalized, raw, score, specNormalized, specRawScore, mean_eq_specMean, hmax,
      mul_comm (35 : α)]
  · simp only [normalized, raw, score, specNormalized, specRawScore, mean_eq_specMean]
    apply min_le_min le_rfl
    apply jsRound_mono
    rw [mul_comm]
    apply mul_le_mul_of_nonneg_left _ (by norm_num)
    apply max_le_max le_rfl
    have := le_max_right 0 (3 / 5 - specMean (fl.map (fun f => f.mouthWidth)))
    linarith

/-- C1 (amended), at a concrete input: one tuple whose mouth width 0.5 is below 0.6, where
the score agrees with the clamped formula. -/
theorem aggregateScore_normalized_unclamped_witness :
    [(⟨3 / 10, 1 / 10, 1 / 2, 1⟩ : Features ℚ)] ≠ [] ∧
    specMean ([(⟨3 / 10, 1 / 10, 1 / 2, 1⟩ : Features ℚ)].map (fun f => f.mouthWidth)) ≤ 3 / 5 ∧
    ∃ r, aggregateScore Rat.sqrt [(⟨3 / 10, 1 / 10, 1 / 2, 1⟩ : Features ℚ)] = some r ∧
      r.normalized = specNormalized [(⟨3 / 10, 1 / 10, 1 / 2, 1⟩ : Features ℚ)] :=
  have hw : specMean ([(⟨3 / 10, 1 / 10, 1 / 2, 1⟩ : Features ℚ)].map
      (fun f => f.mouthWidth)) ≤ 3 / 5 := by
    norm_num [specMean]
  ⟨by simp, hw,
   (aggregateScore_normalized_unclamped Rat.sqrt [⟨3 / 10, 1 / 10, 1 / 2, 1⟩] (by simp)).imp
     (fun _ hr => ⟨hr.1, hr.2.2.1 hw⟩)⟩

/-- C5: for every non-empty sequence of feature tuples the score returned by
`aggregateScore` is an integer between 0 and 100. -/
theorem aggregateScore_normalized_range (sqrt : α → α) (fl : List (Features α))
    (h : fl ≠ []) :
    ∃ r, aggregateScore sqrt fl = some r ∧ 0 ≤ r.normalized ∧ r.normalized ≤ 100 := by
  refine ⟨_, aggregateScore_of_ne_nil sqrt fl h, ?_, ?_⟩
  · exact le_min (by norm_num)
      (jsRound_nonneg (mul_nonneg (raw_nonneg fl) (by norm_num)))
  · exact min_le_left _ _

/-- C5, at a concrete input: one tuple with a large asymmetry, whose score is capped. -/
theorem aggregateScore_normalized_range_witness :
    [(⟨7, 0, 1 / 2, 1⟩ : Features ℚ)] ≠ [] ∧
    ∃ r, aggregateScore Rat.sqrt [(⟨7, 0, 1 / 2, 1⟩ : Features ℚ)] = some r ∧
      0 ≤ r.normalized ∧ r.normalized ≤ 100 :=
  ⟨by simp, aggregateScore_normalized_range Rat.sqrt [⟨7, 0, 1 / 2, 1⟩] (by simp)⟩

/-- C7: `aggregateScore` gives the same result (score and all four detail fields, or
`null` twice) on a sequence and on any permutation of it, in exact arithmetic. -/
theorem aggregateScore_perm (sqrt : α → α) {a b : List (Features α)} (h : a.Perm b) :
    aggregateScore sqrt a = aggregateScore sqrt b := by
  simp only [aggregateScore, normalized, raw, score_perm h, mean_perm (h.map _),
    std_perm sqrt (h.map _), h.length_eq]

/-- C7, at a concrete input: two tuples swapped. -/
theorem aggregateScore_perm_witness :
    List.Perm [(⟨1 / 5, 0, 1 / 2, 1⟩ : Features ℚ), ⟨-1 / 10, 1 / 4, 3 / 4, 2⟩]
      [(⟨-1 / 10, 1 / 4, 3 / 4, 2⟩ : Features ℚ), ⟨1 / 5, 0, 1 / 2, 1⟩] ∧
    aggregateScore Rat.sqrt [(⟨1 / 5, 0, 1 / 2, 1⟩ : Features ℚ), ⟨-1 / 10, 1 / 4, 3 / 4, 2⟩]
      = aggregateScore Rat.sqrt [(⟨-1 / 10, 1 / 4, 3 / 4, 2⟩ : Features ℚ), ⟨1 / 5, 0, 1 / 2, 1⟩] :=
  ⟨List.Perm.swap _ _ [], aggregateScore_perm Rat.sqrt (List.Perm.swap _ _ [])⟩

/-- C8 (amended): five tuples with mouthAsym = 0.3, gazeAsym = 0.1, mouthWidth = 0.5 give
the raw score 1, the final score 35 and the moderate tier, in double precision as well as
in exact arithmetic; and in exact arithmetic a constant sequence of any length `n ≥ 1`
gets the score of the single tuple. -/
theorem constant_sequence_score (sqrt : α → α) (fs : α) (n : Nat) (f : Features α)
    (hn : 1 ≤ n) :
    scoreD (List.replicate 5 ⟨toDouble (3 / 10), toDouble (1 / 10), 1 / 2, 1⟩) = 1 ∧
    rawD (List.replicate 5 ⟨toDouble (3 / 10), toDouble (1 / 10), 1 / 2, 1⟩) = 1 ∧
    Option.map Aggregate.normalized
      (aggregateScoreD (List.replicate 5 ⟨toDouble (3 / 10), toDouble (1 / 10), 1 / 2, 1⟩))
        = some 35 ∧
    score (List.replicate 5 (⟨3 / 10, 1 / 10, 1 / 2, fs⟩ : Features α)) = 1 ∧
    raw (List.replicate 5 (⟨3 / 10, 1 / 10, 1 / 2, fs⟩ : Features α)) = 1 ∧
    Option.map Aggregate.normalized
      (aggregateScore sqrt (List.replicate 5 (⟨3 / 10, 1 / 10, 1 / 2, fs⟩ : Features α)))
        = some 35 ∧
    tierOf 35 = Tier.moderate ∧
    Option.map Aggregate.normalized (aggregateScore sqrt (List.replicate n f))
      = Option.map Aggregate.normalized (aggregateScore sqrt [f]) := by
  have hs : score (List.replicate 5 (⟨3 / 10, 1 / 10, 1 / 2, fs⟩ : Features α)) = 1 := by
    rw [score_replicate 5 _ (by norm_num)]
    norm_num [score, mean, abs_of_pos]
  have hr : raw (List.replicate 5 (⟨3 / 10, 1 / 10, 1 / 2, fs⟩ : Features α)) = 1 := by
    rw [raw, hs]; norm_num
  have hfloor : jsRound ((1 : α) * 35) = 35 := by
    unfold jsRound
    rw [Int.floor_eq_iff]
    norm_num
  refine ⟨by decide!, by decide!, by decide!, hs, hr, ?_, by decide, ?_⟩
  · rw [aggregateScore_of_ne_nil sqrt _ (by simp)]
    simp only [Option.map_some', normalized, hr, hfloor]
    rfl
  · have hne : List.replicate n f ≠ [] := by
      intro h0
      have := congrArg List.length h0
      simp at this
      omega
    rw [aggregateScore_of_ne_nil sqrt _ hne, aggregateScore_of_ne_nil sqrt [f] (by simp)]
    simp only [Option.map_some', normalized, raw, score_replicate n f hn]

/-- C8 (amended), at a concrete input: three copies of one tuple over the rationals. -/
theorem constant_sequence_score_witness :
    1 ≤ 3 ∧
    Option.map Aggregate.normalized
      (aggregateScoreD (List.replicate 5 ⟨toDouble (3 / 10), toDouble (1 / 10), 1 / 2, 1⟩))
        = some 35 ∧
    Option.map Aggregate.normalized
      (aggregateScore Rat.sqrt (List.replicate 5 (⟨3 / 10, 1 / 10, 1 / 2, 1⟩ : Features ℚ)))
        = some 35 ∧
    Option.map Aggregate.normalized
        (aggregateScore Rat.sqrt (List.replicate 3 (⟨1 / 5, 0, 1 / 4, 1⟩ : Features ℚ)))
      = Option.map Aggregate.normalized
        (aggregateScore Rat.sqrt [(⟨1 / 5, 0, 1 / 4, 1⟩ : Features ℚ)]) :=
  have h := constant_sequence_score Rat.sqrt 1 3 ⟨1 / 5, 0, 1 / 4, 1⟩ (by decide)
  ⟨by decide, h.2.2.1, h.2.2.2.2.2.1, h.2.2.2.2.2.2.2⟩

/-- The chain of `evaluateCollected` puts every integer score in exactly one tier. -/
theorem tierOf_iff (s : ℤ) :
    (tierOf s = Tier.high ↔ 60 ≤ s) ∧
    (tierOf s = Tier.moderate ↔ 35 ≤ s ∧ s < 60) ∧
    (tierOf s = Tier.low ↔ s < 35) := by
  unfold tierOf
  by_cases h60 : s ≥ 60
  · simp [h60]; omega
  · by_cases h35 : s ≥ 35
    · simp [h60, h35]; omega
    · simp [h60, h35]; omega

end ScoreClaims

/-! ## `computeFeatures` -/

theorem length_faceOf {α : Type} (d a b n l1 l2 r1 r2 : Point α) :
    (faceOf d a b n l1 l2 r1 r2).length = 478 := by
  simp [faceOf]

section FeatureLemmas

variable {α : Type} [LinearOrderedField α]

theorem getElem?_eq_pt (lm : List (Point α)) (i : Nat) (h : i < lm.length) :
    lm[i]? = some (pt lm i) := by
  simp [pt, List.getD_eq_getElem?_getD, List.getElem?_eq_getElem h]

/-- On a landmark set that contains index 362 (the largest index read) `computeFeatures`
returns, and its result is the record below. -/
theorem computeFeatures_of_length (sqrt : α → α) (lm : List (Point α))
    (h : RIGHT_EYE_LEFT < lm.length) :
    computeFeatures sqrt lm = some
      ⟨((pt lm LEFT_MOUTH).y - (pt lm NOSE_TIP).y)
            / orElse (normDistance sqrt (leftEyeCenter lm) (rightEyeCenter lm)) (1 / 1000000)
          - ((pt lm RIGHT_MOUTH).y - (pt lm NOSE_TIP).y)
            / orElse (normDistance sqrt (leftEyeCenter lm) (rightEyeCenter lm)) (1 / 1000000),
        ((leftEyeCenter lm).x - (pt lm NOSE_TIP).x)
            / orElse (normDistance sqrt (leftEyeCenter lm) (rightEyeCenter lm)) (1 / 1000000)
          - ((rightEyeCenter lm).x - (pt lm NOSE_TIP).x)
            / orElse (normDistance sqrt (leftEyeCenter lm) (rightEyeCenter lm)) (1 / 1000000),
        normDistance sqrt (pt lm LEFT_MOUTH) (pt lm RIGHT_MOUTH)
          / orElse (normDistance sqrt (leftEyeCenter lm) (rightEyeCenter lm)) (1 / 1000000),
        orElse (normDistance sqrt (leftEyeCenter lm) (rightEyeCenter lm)) (1 / 1000000)⟩ := by
  have h362 : 362 < lm.length := h
  have e1 := getElem?_eq_pt lm LEFT_MOUTH (by unfold LEFT_MOUTH; omega)
  have e2 := getElem?_eq_pt lm RIGHT_MOUTH (by unfold RIGHT_MOUTH; omega)
  have e3 := getElem?_eq_pt lm NOSE_TIP (by unfold NOSE_TIP; omega)
  have e4 := getElem?_eq_pt lm LEFT_EYE_LEFT (by unfold LEFT_EYE_LEFT; omega)
  have e5 := getElem?_eq_pt lm LEFT_EYE_RIGHT (by unfold LEFT_EYE_RIGHT; omega)
  have e6 := getElem?_eq_pt lm RIGHT_EYE_LEFT (by unfold RIGHT_EYE_LEFT; omega)
  have e7 := getElem?_eq_pt lm RIGHT_EYE_RIGHT (by unfold RIGHT_EYE_RIGHT; omega)
  simp only [computeFeatures, e1, e2, e3, e4, e5, e6, e7, Option.bind_eq_bind,
    Option.some_bind, Option.pure_def, leftEyeCenter, rightEyeCenter]

/-- On a landmark set that does not reach index 362 `computeFeatures` raises. -/
theorem computeFeatures_of_short (sqrt : α → α) (lm : List (Point α))
    (h : lm.length ≤ RIGHT_EYE_LEFT) : computeFeatures sqrt lm = none := by
  have h362 : lm.length ≤ 362 := h
  have e6 : lm[RIGHT_EYE_LEFT]? = none := List.getElem?_eq_none (by unfold RIGHT_EYE_LEFT; omega)
  simp only [computeFeatures, e6, Option.bind_eq_bind]
  cases lm[LEFT_MOUTH]? <;> cases lm[RIGHT_MOUTH]? <;> cases lm[NOSE_TIP]? <;>
    cases lm[LEFT_EYE_LEFT]? <;> cases lm[LEFT_EYE_RIGHT]? <;> simp

theorem pt_set_ne (lm : List (Point α)) (i j : Nat) (p : Point α) (h : j ≠ i) :
    pt (lm.set j p) i = pt lm i := by
  simp [pt, List.getD_eq_getElem?_getD, List.getElem?_set_ne h]

theorem leftEyeCenter_set_nose (lm : List (Point α)) (p : Point α) :
    leftEyeCenter (lm.set NOSE_TIP p) = leftEyeCenter lm := by
  simp [leftEyeCenter, pt_set_ne, NOSE_TIP, LEFT_EYE_LEFT, LEFT_EYE_RIGHT]

theorem rightEyeCenter_set_nose (lm : List (Point α)) (p : Point α) :
    rightEyeCenter (lm.set NOSE_TIP p) = rightEyeCenter lm := by
  simp [rightEyeCenter, pt_set_ne, NOSE_TIP, RIGHT_EYE_LEFT, RIGHT_EYE_RIGHT]

theorem eyeCenters_eq_iff (lm : List (Point α)) :
    leftEyeCenter lm = rightEyeCenter lm ↔
      (leftEyeCenter lm).x - (rightEyeCenter lm).x = 0 ∧
      (leftEyeCenter lm).y - (rightEyeCenter lm).y = 0 := by
  simp only [leftEyeCenter, rightEyeCenter, Point.mk.injEq, sub_eq_zero, and_true]

theorem orElse_pos {v d : α} (hv : 0 ≤ v) (hd : 0 < d) : 0 < orElse v d := by
  unfold orElse
  split
  · exact hd
  · rename_i h
    exact lt_of_le_of_ne hv (Ne.symm h)

theorem pt_faceOf (d a b n l1 l2 r1 r2 : Point α) :
    pt (faceOf d a b n l1 l2 r1 r2) LEFT_MOUTH = a ∧
    pt (faceOf d a b n l1 l2 r1 r2) RIGHT_MOUTH = b ∧
    pt (faceOf d a b n l1 l2 r1 r2) NOSE_TIP = n ∧
    pt (faceOf d a b n l1 l2 r1 r2) LEFT_EYE_LEFT = l1 ∧
    pt (faceOf d a b n l1 l2 r1 r2) LEFT_EYE_RIGHT = l2 ∧
    pt (faceOf d a b n l1 l2 r1 r2) RIGHT_EYE_LEFT = r1 ∧
    pt (faceOf d a b n l1 l2 r1 r2) RIGHT_EYE_RIGHT = r2 := by
  simp [pt, faceOf, List.getD_eq_getElem?_getD, List.getElem?_range, LEFT_MOUTH, RIGHT_MOUTH,
    NOSE_TIP, LEFT_EYE_LEFT, LEFT_EYE_RIGHT, RIGHT_EYE_LEFT, RIGHT_EYE_RIGHT]

theorem eyeCenters_symmetricFace :
    leftEyeCenter (symmetricFace : List (Point α)) = ⟨7 / 20, 2 / 5, 0⟩ ∧
    rightEyeCenter (symmetricFace : List (Point α)) = ⟨13 / 20, 2 / 5, 0⟩ := by
  simp only [leftEyeCenter, rightEyeCenter, symmetricFace, pt_faceOf, Point.mk.injEq]
  norm_num

theorem mirrored_symmetricFace : Mirrored (symmetricFace : List (Point α)) := by
  obtain ⟨hl, hr⟩ := eyeCenters_symmetricFace (α := α)
  refine ⟨?_, ?_, ?_, ?_⟩
  · simp only [symmetricFace, pt_faceOf]
  · simp only [symmetricFace, pt_faceOf]; norm_num
  · rw [hl, hr]
  · rw [hl, hr]; simp only [symmetricFace, pt_faceOf]; norm_num

end FeatureLemmas

section RealFeatures

theorem sqrt_sq_add_eq_zero (dx dy : ℝ) :
    Real.sqrt (dx * dx + dy * dy) = 0 ↔ dx = 0 ∧ dy = 0 := by
  have h0 : 0 ≤ dx * dx + dy * dy := add_nonneg (mul_self_nonneg dx) (mul_self_nonneg dy)
  rw [Real.sqrt_eq_zero h0]
  constructor
  · intro h
    have hx : dx * dx = 0 := by nlinarith [mul_self_nonneg dx, mul_self_nonneg dy]
    have hy : dy * dy = 0 := by nlinarith [mul_self_nonneg dx, mul_self_nonneg dy]
    exact ⟨mul_self_eq_zero.mp hx, mul_self_eq_zero.mp hy⟩
  · rintro ⟨rfl, rfl⟩
    simp

theorem abs_le_sqrt_sq_add (dx dy : ℝ) : |dx| ≤ Real.sqrt (dx * dx + dy * dy) := by
  apply Real.abs_le_sqrt
  nlinarith [mul_self_nonneg dy]

theorem abs_eq_sqrt_sq_add_iff (dx dy : ℝ) :
    |dx| = Real.sqrt (dx * dx + dy * dy) ↔ dy = 0 := by
  constructor
  · intro h
    have h0 : 0 ≤ dx * dx + dy * dy := add_nonneg (mul_self_nonneg dx) (mul_self_nonneg dy)
    have h1 : |dx| * |dx| = dx * dx + dy * dy := by
      rw [h]; exact Real.mul_self_sqrt h0
    rw [abs_mul_abs_self] at h1
    have : dy * dy = 0 := by linarith
    exact mul_self_eq_zero.mp this
  · rintro rfl
    simp only [mul_zero, add_zero]
    rw [Real.sqrt_mul_self_eq_abs]

/-- The face scale for real-valued landmarks is positive. -/
theorem faceScale_pos (a b : Point ℝ) :
    0 < orElse (normDistance Real.sqrt a b) (1 / 1000000) :=
  orElse_pos (Real.sqrt_nonneg _) (by norm_num)

theorem gaze_core (lx rx nx dy : ℝ) :
    |(lx - nx) / orElse (Real.sqrt ((lx - rx) * (lx - rx) + dy * dy)) (1 / 1000000)
        - (rx - nx) / orElse (Real.sqrt ((lx - rx) * (lx - rx) + dy * dy)) (1 / 1000000)| ≤ 1 ∧
    (|(lx - nx) / orElse (Real.sqrt ((lx - rx) * (lx - rx) + dy * dy)) (1 / 1000000)
        - (rx - nx) / orElse (Real.sqrt ((lx - rx) * (lx - rx) + dy * dy)) (1 / 1000000)| = 1
      ↔ ¬ (lx - rx = 0 ∧ dy = 0) ∧ dy = 0) := by
  have e : ∀ fs : ℝ, (lx - nx) / fs - (rx - nx) / fs = (lx - rx) / fs := by
    intro fs; ring
  rw [e]
  by_cases hd : Real.sqrt ((lx - rx) * (lx - rx) + dy * dy) = 0
  · have hz := (sqrt_sq_add_eq_zero _ _).mp hd
    simp [orElse, hd, hz.1, hz.2]
  · have hz : ¬ (lx - rx = 0 ∧ dy = 0) := fun h => hd ((sqrt_sq_add_eq_zero _ _).mpr h)
    have hpos : 0 < Real.sqrt ((lx - rx) * (lx - rx) + dy * dy) :=
      lt_of_le_of_ne (Real.sqrt_nonneg _) (Ne.symm hd)
    have hfs : orElse (Real.sqrt ((lx - rx) * (lx - rx) + dy * dy)) (1 / 1000000)
        = Real.sqrt ((lx - rx) * (lx - rx) + dy * dy) := by
      simp [orElse, hd]
    rw [hfs, abs_div, abs_of_pos hpos]
    constructor
    · exact (div_le_one hpos).mpr (abs_le_sqrt_sq_add _ _)
    · rw [div_eq_one_iff_eq (ne_of_gt hpos), abs_eq_sqrt_sq_add_iff]
      exact ⟨fun h => ⟨hz, h⟩, fun h => h.2⟩

/-- C6: on every landmark set that contains all indexed landmarks `computeFeatures`
returns a strictly positive `faceScale`; when the two eye centers coincide, `faceScale` is
1e-6 and the three quotients are the numerators times 10^6. -/
theorem computeFeatures_faceScale_pos (lm : List (Point ℝ))
    (h : RIGHT_EYE_LEFT < lm.length) :
    ∃ f, computeFeatures Real.sqrt lm = some f ∧ 0 < f.faceScale ∧
      (leftEyeCenter lm = rightEyeCenter lm →
        f.faceScale = 1 / 1000000 ∧
        f.mouthAsym = ((pt lm LEFT_MOUTH).y - (pt lm NOSE_TIP).y) * 1000000
          - ((pt lm RIGHT_MOUTH).y - (pt lm NOSE_TIP).y) * 1000000 ∧
        f.gazeAsym = 0 ∧
        f.mouthWidth
          = normDistance Real.sqrt (pt lm LEFT_MOUTH) (pt lm RIGHT_MOUTH) * 1000000) := by
  refine ⟨_, computeFeatures_of_length Real.sqrt lm h, faceScale_pos _ _, ?_⟩
  intro heq
  have hfs : orElse (normDistance Real.sqrt (leftEyeCenter lm) (rightEyeCenter lm))
      (1 / 1000000) = 1 / 1000000 := by
    simp [orElse, normDistance, heq]
  simp only [hfs]
  refine ⟨trivial, ?_, ?_, ?_⟩
  · ring
  · rw [heq]; ring
  · ring

/-- C10 (amended): in exact real arithmetic `gazeAsym` is
`(leftEyeCenter.x - rightEyeCenter.x) / faceScale` and is the same for every position of
the nose tip; its absolute value is at most 1, and is 1 exactly when the eye centers are
distinct and have the same `y`. -/
theorem gazeAsym_ignores_nose (lm : List (Point ℝ)) (h : RIGHT_EYE_LEFT < lm.length) :
    ∃ f, computeFeatures Real.sqrt lm = some f ∧
      f.gazeAsym = ((leftEyeCenter lm).x - (rightEyeCenter lm).x) / f.faceScale ∧
      (∀ p, Option.map Features.gazeAsym (computeFeatures Real.sqrt (lm.set NOSE_TIP p))
        = some f.gazeAsym) ∧
      |f.gazeAsym| ≤ 1 ∧
      (|f.gazeAsym| = 1 ↔
        leftEyeCenter lm ≠ rightEyeCenter lm ∧
        (leftEyeCenter lm).y = (rightEyeCenter lm).y) := by
  have core := gaze_core (leftEyeCenter lm).x (rightEyeCenter lm).x (pt lm NOSE_TIP).x
    ((leftEyeCenter lm).y - (rightEyeCenter lm).y)
  refine ⟨_, computeFeatures_of_length Real.sqrt lm h, ?_, ?_, ?_, ?_⟩
  · simp only []
    ring
  · intro p
    rw [computeFeatures_of_length Real.sqrt (lm.set NOSE_TIP p) (by simpa using h)]
    simp only [Option.map_some', leftEyeCenter_set_nose, rightEyeCenter_set_nose]
    congr 1
    ring
  · simpa only [normDistance] using core.1
  · have h2 := core.2
    simp only [normDistance]
    rw [h2, ne_eq, eyeCenters_eq_iff, sub_eq_zero (a := (leftEyeCenter lm).y)]

/-- C6, at a concrete input: the face whose eye centers coincide, where `faceScale` is
1e-6 and `gazeAsym` is 0. -/
theorem computeFeatures_faceScale_pos_witness :
    RIGHT_EYE_LEFT < (degenerateFace : List (Point ℝ)).length ∧
    leftEyeCenter (degenerateFace : List (Point ℝ)) = rightEyeCenter degenerateFace ∧
    ∃ f, computeFeatures Real.sqrt (degenerateFace : List (Point ℝ)) = some f ∧
      0 < f.faceScale ∧ f.faceScale = 1 / 1000000 ∧ f.gazeAsym = 0 :=
  have heq : leftEyeCenter (degenerateFace : List (Point ℝ)) = rightEyeCenter degenerateFace := by
    simp only [leftEyeCenter, rightEyeCenter, degenerateFace, pt_faceOf]
  ⟨by rw [degenerateFace, length_faceOf]; decide, heq,
   (computeFeatures_faceScale_pos degenerateFace
      (by rw [degenerateFace, length_faceOf]; decide)).imp
     (fun _ hf => ⟨hf.1, hf.2.1, (hf.2.2 heq).1, (hf.2.2 heq).2.2.1⟩)⟩

/-- C10 (amended), at a concrete input: the level symmetric face, whose eye centers are distinct
and level, so that `|gazeAsym| = 1`. -/
theorem gazeAsym_ignores_nose_witness :
    RIGHT_EYE_LEFT < (symmetricFace : List (Point ℝ)).length ∧
    ∃ f, computeFeatures Real.sqrt (symmetricFace : List (Point ℝ)) = some f ∧
      |f.gazeAsym| ≤ 1 ∧ |f.gazeAsym| = 1 :=
  have hd : leftEyeCenter (symmetricFace : List (Point ℝ)) ≠ rightEyeCenter symmetricFace ∧
      (leftEyeCenter (symmetricFace : List (Point ℝ))).y = (rightEyeCenter symmetricFace).y := by
    rw [eyeCenters_symmetricFace.1, eyeCenters_symmetricFace.2]
    norm_num
  ⟨by rw [symmetricFace, length_faceOf]; decide,
   (gazeAsym_ignores_nose symmetricFace (by rw [symmetricFace, length_faceOf]; decide)).imp
     (fun _ hf => ⟨hf.1, hf.2.2.2.1, hf.2.2.2.2.mpr hd⟩)⟩

/-- C2 (counterexample): the level symmetric face is mirrored across the vertical line
through its nose tip, and `computeFeatures` returns `gazeAsym = -1` on it, not 0. -/
theorem mirrored_gazeAsym_ne_zero :
    RIGHT_EYE_LEFT < (symmetricFace : List (Point ℝ)).length ∧
    Mirrored (symmetricFace : List (Point ℝ)) ∧
    ∃ f, computeFeatures Real.sqrt (symmetricFace : List (Point ℝ)) = some f ∧
      f.gazeAsym = -1 ∧ f.gazeAsym ≠ 0 := by
  have hlen : RIGHT_EYE_LEFT < (symmetricFace : List (Point ℝ)).length := by
    rw [symmetricFace, length_faceOf]; decide
  obtain ⟨hl, hr⟩ := eyeCenters_symmetricFace (α := ℝ)
  have hs : Real.sqrt ((7 / 20 - 13 / 20) * (7 / 20 - 13 / 20) + (2 / 5 - 2 / 5) * (2 / 5 - 2 / 5))
      = 3 / 10 := by
    rw [show ((7 : ℝ) / 20 - 13 / 20) * (7 / 20 - 13 / 20) + (2 / 5 - 2 / 5) * (2 / 5 - 2 / 5)
      = (3 / 10) * (3 / 10) by norm_num]
    exact Real.sqrt_mul_self (by norm_num)
  have hg : ∀ g : ℝ, g = -1 → g = -1 ∧ g ≠ 0 := by
    intro g hg; rw [hg]; norm_num
  refine ⟨hlen, mirrored_symmetricFace, _, computeFeatures_of_length Real.sqrt _ hlen, hg _ ?_⟩
  simp only [hl, hr, normDistance, hs, orElse]
  simp only [symmetricFace, pt_faceOf]
  norm_num

/-- C2 (amended): on a mirrored landmark set `computeFeatures` returns `mouthAsym = 0`;
`gazeAsym` is 0 when the two eye centers coincide and has absolute value 1 when they are
distinct. -/
theorem mirrored_features (lm : List (Point ℝ)) (h : RIGHT_EYE_LEFT < lm.length)
    (hm : Mirrored lm) :
    ∃ f, computeFeatures Real.sqrt lm = some f ∧ f.mouthAsym = 0 ∧
      (leftEyeCenter lm = rightEyeCenter lm → f.gazeAsym = 0) ∧
      (leftEyeCenter lm ≠ rightEyeCenter lm → |f.gazeAsym| = 1) := by
  obtain ⟨hmy, _, hey, _⟩ := hm
  have core := gaze_core (leftEyeCenter lm).x (rightEyeCenter lm).x (pt lm NOSE_TIP).x
    ((leftEyeCenter lm).y - (rightEyeCenter lm).y)
  refine ⟨_, computeFeatures_of_length Real.sqrt lm h, ?_, ?_, ?_⟩
  · simp only [hmy]
    ring
  · intro heq
    simp only [heq]
    ring
  · intro hne
    simp only [normDistance]
    rw [core.2, ← eyeCenters_eq_iff, sub_eq_zero]
    exact ⟨hne, hey⟩

/-- C2 (amended), at a concrete input: the level symmetric face, whose eye centers are
distinct. -/
theorem mirrored_features_witness :
    RIGHT_EYE_LEFT < (symmetricFace : List (Point ℝ)).length ∧
    Mirrored (symmetricFace : List (Point ℝ)) ∧
    ∃ f, computeFeatures Real.sqrt (symmetricFace : List (Point ℝ)) = some f ∧
      f.mouthAsym = 0 ∧ |f.gazeAsym| = 1 :=
  have hd : leftEyeCenter (symmetricFace : List (Point ℝ)) ≠ rightEyeCenter symmetricFace := by
    rw [eyeCenters_symmetricFace.1, eyeCenters_symmetricFace.2]
    norm_num
  ⟨by rw [symmetricFace, length_faceOf]; decide, mirrored_symmetricFace,
   (mirrored_features symmetricFace (by rw [symmetricFace, length_faceOf]; decide)
     mirrored_symmetricFace).imp (fun _ hf => ⟨hf.1, hf.2.1, hf.2.2.2 hd⟩)⟩

end RealFeatures

/-! ## `evaluateCollected` -/

section Evaluate

variable {α : Type} [LinearOrderedField α]

theorem mapM_computeFeatures_length (sqrt : α → α) (l : List (List (Point α)))
    (r : List (Features α)) (h : l.mapM (computeFeatures sqrt) = some r) :
    r.length = l.length := by
  induction l generalizing r with
  | nil =>
    rw [List.mapM_nil] at h
    cases h
    rfl
  | cons x xs ih =>
    rw [List.mapM_cons] at h
    cases hx : computeFeatures sqrt x with
    | none =>
      rw [hx] at h
      cases h
    | some fx =>
      cases hxs : xs.mapM (computeFeatures sqrt) with
      | none =>
        rw [hx, hxs] at h
        cases h
      | some rs =>
        rw [hx, hxs] at h
        cases h
        simp only [List.length_cons, ih rs hxs]

theorem mapM_computeFeatures_of_length (sqrt : α → α) (l : List (List (Point α)))
    (h : ∀ lm ∈ l, RIGHT_EYE_LEFT < lm.length) :
    ∃ r, l.mapM (computeFeatures sqrt) = some r := by
  induction l with
  | nil => exact ⟨[], List.mapM_nil _⟩
  | cons x xs ih =>
    obtain ⟨rs, hrs⟩ := ih (fun lm hlm => h lm (List.mem_cons_of_mem _ hlm))
    have hx := computeFeatures_of_length sqrt x (h x (List.mem_cons_self _ _))
    rw [List.mapM_cons, hx, hrs]
    exact ⟨_, rfl⟩

variable [FloorRing α]

/-- What `evaluateCollected` does when every collected landmark set contains all indexed
landmarks and at least one was collected: the features are computed, `aggregateScore`
returns a result, and the page shows its score and tier and stores the report. -/
theorem evaluateCollected_of_length (sqrt : α → α) (now : String) (st : State α)
    (hne : st.collectedResults ≠ [])
    (hlen : ∀ lm ∈ st.collectedResults, RIGHT_EYE_LEFT < lm.length) :
    ∃ features agg,
      st.collectedResults.mapM (computeFeatures sqrt) = some features ∧
      aggregateScore sqrt features = some agg ∧
      evaluateCollected sqrt now st =
        { st with
          aggregations := st.aggregations + 1
          scoreText := "Screening score: " ++ toString agg.normalized ++ " / 100"
          adviceText := adviceHtml (tierOf agg.normalized)
          downloadDisabled := false
          startDisabled := false
          stopDisabled := true
          lastReport :=
            some ⟨now, agg.normalized, agg.details, st.collectedResults.length⟩ } := by
  obtain ⟨features, hf⟩ := mapM_computeFeatures_of_length sqrt _ hlen
  have hfl : features ≠ [] := by
    intro h0
    have := mapM_computeFeatures_length sqrt _ _ hf
    rw [h0] at this
    exact hne (List.length_eq_zero.mp this.symm)
  have hagg := aggregateScore_of_ne_nil sqrt features hfl
  have hlen0 : st.collectedResults.length ≠ 0 := by simpa using hne
  refine ⟨features, _, hf, hagg, ?_⟩
  simp only [evaluateCollected, hlen0, if_false, hf, hagg]

/-- The two ways `evaluateCollected` can end: without running `aggregateScore`, changing at
most the score text; or after running it once, with the stop button disabled and the
start button enabled.  The timers, the collecting flag and the collected sequence are
never touched. -/
theorem evaluateCollected_cases (sqrt : α → α) (now : String) (st : State α) :
    (evaluateCollected sqrt now st).pending = st.pending ∧
    (evaluateCollected sqrt now st).captureTimeout = st.captureTimeout ∧
    (evaluateCollected sqrt now st).nextTimer = st.nextTimer ∧
    (evaluateCollected sqrt now st).collecting = st.collecting ∧
    (evaluateCollected sqrt now st).manuallyStopped = st.manuallyStopped ∧
    (((evaluateCollected sqrt now st).aggregations = st.aggregations ∧
      (evaluateCollected sqrt now st).startDisabled = st.startDisabled ∧
      (evaluateCollected sqrt now st).stopDisabled = st.stopDisabled) ∨
     ((evaluateCollected sqrt now st).aggregations = st.aggregations + 1 ∧
      (evaluateCollected sqrt now st).startDisabled = false ∧
      (evaluateCollected sqrt now st).stopDisabled = true)) := by
  unfold evaluateCollected
  by_cases h0 : st.collectedResults.length = 0
  · simp [h0]
  · cases hf : st.collectedResults.mapM (computeFeatures sqrt) with
    | none => simp only [h0, if_false, true_and, and_self, true_or]
    | some features =>
      have hfl : features ≠ [] := by
        intro hnil
        have := mapM_computeFeatures_length sqrt _ _ hf
        rw [hnil] at this
        exact h0 this.symm
      simp only [h0, if_false, aggregateScore_of_ne_nil sqrt features hfl, true_and, and_self,
        or_true]

end Evaluate

/-! ## Empty sessions and tiers -/

section Outcome

variable {α : Type} [LinearOrderedField α] [FloorRing α]

theorem adviceHtml_injective : Function.Injective adviceHtml := by
  intro a b h
  cases a <;> cases b <;> first | rfl | exact absurd h (by decide)

/-- C3: `aggregateScore` returns `null` on the empty sequence and a result on every
non-empty one; `evaluateCollected` on an empty collected sequence only sets the score text
to the no-face message: no report is stored and `aggregateScore` is not run. -/
theorem aggregateScore_none_iff_empty (sqrt : α → α) (now : String)
    (fl : List (Features α)) (st : State α) (hst : st.collectedResults = []) :
    aggregateScore sqrt ([] : List (Features α)) = none ∧
    (aggregateScore sqrt fl = none ↔ fl = []) ∧
    (fl ≠ [] → ∃ r, aggregateScore sqrt fl = some r) ∧
    evaluateCollected sqrt now st =
      { st with scoreText :=
          "No face detected. Try again with better lighting and face the camera." } ∧
    (evaluateCollected sqrt now st).lastReport = st.lastReport ∧
    (evaluateCollected sqrt now st).aggregations = st.aggregations := by
  have he : evaluateCollected sqrt now st =
      { st with scoreText :=
          "No face detected. Try again with better lighting and face the camera." } := by
    simp [evaluateCollected, hst]
  refine ⟨by simp [aggregateScore], ?_, fun h => ⟨_, aggregateScore_of_ne_nil sqrt fl h⟩, he,
    by rw [he], by rw [he]⟩
  constructor
  · intro h
    by_contra hne
    rw [aggregateScore_of_ne_nil sqrt fl hne] at h
    cases h
  · rintro rfl
    simp [aggregateScore]

/-- C3, at a concrete input: the page right after loading, where nothing is collected. -/
theorem aggregateScore_none_iff_empty_witness :
    (initial false true true "" "" : State ℚ).collectedResults = [] ∧
    aggregateScore Rat.sqrt ([] : List (Features ℚ)) = none ∧
    (evaluateCollected Rat.sqrt "t" (initial false true true "" "")).lastReport = none :=
  ⟨rfl,
   (aggregateScore_none_iff_empty Rat.sqrt "t" [] (initial false true true "" "") rfl).1,
   (aggregateScore_none_iff_empty Rat.sqrt "t" [] (initial false true true "" "")
      rfl).2.2.2.2.1⟩

/-- C4: when `evaluateCollected` stores a report with score `s` it shows the advice of
`tierOf s`, and `tierOf` is a three-way partition of the integers: high iff `s ≥ 60`,
moderate iff `35 ≤ s < 60`, low iff `s < 35`; 59 is moderate, 60 high, 34 low and 35
moderate, and the three advice texts are pairwise different. -/
theorem evaluateCollected_tier (sqrt : α → α) (now : String) (st : State α) (s : ℤ)
    (hne : st.collectedResults ≠ [])
    (hlen : ∀ lm ∈ st.collectedResults, RIGHT_EYE_LEFT < lm.length) :
    (∃ r, (evaluateCollected sqrt now st).lastReport = some r ∧
      (evaluateCollected sqrt now st).adviceText = adviceHtml (tierOf r.score) ∧
      (evaluateCollected sqrt now st).scoreText
        = "Screening score: " ++ toString r.score ++ " / 100") ∧
    (tierOf s = Tier.high ↔ 60 ≤ s) ∧
    (tierOf s = Tier.moderate ↔ 35 ≤ s ∧ s < 60) ∧
    (tierOf s = Tier.low ↔ s < 35) ∧
    tierOf 59 = Tier.moderate ∧ tierOf 60 = Tier.high ∧
    tierOf 34 = Tier.low ∧ tierOf 35 = Tier.moderate ∧
    Function.Injective adviceHtml := by
  obtain ⟨features, agg, _, _, he⟩ := evaluateCollected_of_length sqrt now st hne hlen
  obtain ⟨h1, h2, h3⟩ := tierOf_iff s
  refine ⟨⟨_, by rw [he], by rw [he], by rw [he]⟩, h1, h2, h3, by decide, by decide, by decide,
    by decide, adviceHtml_injective⟩

/-- C4, at a concrete input: a session holding one frame, the level symmetric face. -/
theorem evaluateCollected_tier_witness :
    ({ (initial true false true "" "" : State ℚ) with
        collectedResults := [symmetricFace] }).collectedResults ≠ [] ∧
    (∃ r, (evaluateCollected Rat.sqrt "t"
        { (initial true false true "" "" : State ℚ) with
          collectedResults := [symmetricFace] }).lastReport = some r ∧
      (evaluateCollected Rat.sqrt "t"
        { (initial true false true "" "" : State ℚ) with
          collectedResults := [symmetricFace] }).adviceText = adviceHtml (tierOf r.score)) ∧
    (tierOf 47 = Tier.moderate ↔ 35 ≤ (47 : ℤ) ∧ (47 : ℤ) < 60) :=
  have h := evaluateCollected_tier Rat.sqrt "t"
    { (initial true false true "" "" : State ℚ) with collectedResults := [symmetricFace] } 47
    (by simp [initial])
    (by
      intro lm hlm
      have : lm = symmetricFace := by simpa [initial] using hlm
      rw [this, symmetricFace, length_faceOf]
      decide)
  ⟨by simp [initial], h.1.imp (fun _ hr => ⟨hr.1, hr.2.1⟩), h.2.2.1⟩

end Outcome

/-! ## The capture session -/

section Session

variable {α : Type}

theorem clearCapture_eq_nil (st : State α) (h : SessionInv st) :
    clearCapture st.captureTimeout st.pending = [] := by
  rcases h.pending_cases with h0 | ⟨id, hp, hc, hid⟩
  · rw [h0]
    unfold clearCapture
    split <;> simp
  · rw [hp, hc]
    obtain ⟨k, rfl⟩ : ∃ k, id = k + 1 := ⟨id - 1, by omega⟩
    simp [clearCapture]

theorem sessionInv_initial (a b c : Bool) (t u : String) :
    SessionInv (initial a b c t u : State α) := by
  constructor <;> simp [initial]

theorem sessionInv_startClick (st : State α) (h : SessionInv st)
    (he : st.startDisabled = false) : SessionInv (startClick st) := by
  have hp := h.start_enabled he
  have hn := h.nextTimer_pos
  constructor
  · right
    exact ⟨st.nextTimer, by simp [startClick, hp], by simp [startClick], hn⟩
  · simp [startClick]
  · simp [startClick]
  · simp [startClick]
  · simp [startClick]
  · simp [startClick]

theorem pending_eq_singleton (st : State α) (h : SessionInv st) (id : Nat)
    (hid : id ∈ st.pending) : st.pending = [id] := by
  rcases h.pending_cases with h0 | ⟨k, hp, _, _⟩
  · rw [h0] at hid
    cases hid
  · rw [hp] at hid
    rw [hp, List.mem_singleton.mp hid]

variable [LinearOrderedField α]

theorem sessionInv_onResults (faces : List (List (Point α))) (st : State α)
    (h : SessionInv st) : SessionInv (onResults faces st) := by
  unfold onResults
  split
  · exact h
  · split
    · exact h
    · exact ⟨h.pending_cases, h.nextTimer_pos, h.start_enabled, h.agg_le, h.agg_one, h.stopped⟩

variable [FloorRing α]

/-- After `evaluateCollected`, run on a state with no pending timeout, the collecting flag
down and no aggregation so far, the invariant holds. -/
theorem sessionInv_evaluateCollected (sqrt : α → α) (now : String) (st : State α)
    (hp : st.pending = []) (hc : st.collecting = false) (ha : st.aggregations = 0)
    (hn : 1 ≤ st.nextTimer) : SessionInv (evaluateCollected sqrt now st) := by
  obtain ⟨e1, _, e3, e4, _, e6⟩ := evaluateCollected_cases sqrt now st
  constructor
  · left; rw [e1, hp]
  · rw [e3]; exact hn
  · intro _; rw [e1, hp]
  · rcases e6 with ⟨e, _, _⟩ | ⟨e, _, _⟩ <;> simp [e, ha]
  · intro h1
    rcases e6 with ⟨e, _, _⟩ | ⟨_, _, e8⟩
    · rw [e, ha] at h1
      cases h1
    · exact ⟨by rw [e1, hp], e8, by rw [e4, hc]⟩
  · intro _
    exact ⟨by rw [e1, hp], by rw [e4, hc]⟩

theorem sessionInv_stopClick (sqrt : α → α) (now : String) (st : State α) (h : SessionInv st)
    (he : st.stopDisabled = false) : SessionInv (stopClick sqrt now st) := by
  have ha : st.aggregations = 0 := by
    have h1 := h.agg_le
    have h2 := h.agg_one
    by_contra h0
    have h3 := (h2 (by omega)).2.1
    rw [he] at h3
    cases h3
  exact sessionInv_evaluateCollected sqrt now _ (clearCapture_eq_nil st h) rfl ha h.nextTimer_pos

theorem sessionInv_deadlineFires (sqrt : α → α) (id : Nat) (now : String) (st : State α)
    (h : SessionInv st) (hid : id ∈ st.pending) : SessionInv (deadlineFires sqrt id now st) := by
  have hp := pending_eq_singleton st h id hid
  have ha : st.aggregations = 0 := by
    have h1 := h.agg_le
    have h2 := h.agg_one
    by_contra h0
    have h3 := (h2 (by omega)).1
    rw [hp] at h3
    cases h3
  refine sessionInv_evaluateCollected sqrt now _ ?_ rfl ha h.nextTimer_pos
  simp [hp]

theorem sessionInv_step (sqrt : α → α) (st st2 : State α) (e : Event α) (h : SessionInv st)
    (hs : step sqrt st e = some st2) : SessionInv st2 := by
  cases e with
  | start =>
    simp only [step] at hs
    split at hs
    · cases hs
    · rename_i hd
      cases hs
      exact sessionInv_startClick st h (by simpa using hd)
  | stop now =>
    simp only [step] at hs
    split at hs
    · cases hs
    · rename_i hd
      cases hs
      exact sessionInv_stopClick sqrt now st h (by simpa using hd)
  | deadline id now =>
    simp only [step] at hs
    split at hs
    · rename_i hd
      cases hs
      exact sessionInv_deadlineFires sqrt id now st h hd
    · cases hs
  | frame faces =>
    simp only [step] at hs
    cases hs
    exact sessionInv_onResults faces st h

theorem sessionInv_of_reachable (sqrt : α → α) (st : State α) (h : Reachable sqrt st) :
    SessionInv st := by
  induction h with
  | init a b c t u => exact sessionInv_initial a b c t u
  | next e _ hs ih => exact sessionInv_step sqrt _ _ e ih hs

/-- C9: in every reachable state of the page `aggregateScore` has run at most once since
the last start click; once a manual stop has happened in the session the collecting flag
is down and no timeout is pending, so no deadline event can occur; and a stop click, when
the stop button is enabled, leaves the collecting flag down and no timeout pending. -/
theorem manual_stop_cancels_deadline (sqrt : α → α) (st : State α)
    (h : Reachable sqrt st) :
    st.aggregations ≤ 1 ∧
    (st.manuallyStopped = true →
      st.collecting = false ∧ st.pending = [] ∧
      ∀ id now, step sqrt st (Event.deadline id now) = none) ∧
    (∀ now st2, step sqrt st (Event.stop now) = some st2 →
      st2.manuallyStopped = true ∧ st2.collecting = false ∧ st2.pending = [] ∧
      st2.aggregations ≤ 1 ∧ ∀ id t, step sqrt st2 (Event.deadline id t) = none) := by
  have hinv := sessionInv_of_reachable sqrt st h
  refine ⟨hinv.agg_le, ?_, ?_⟩
  · intro hm
    obtain ⟨hp, hc⟩ := hinv.stopped hm
    refine ⟨hc, hp, ?_⟩
    intro id now
    simp [step, hp]
  · intro now st2 hs
    have hinv2 := sessionInv_step sqrt st st2 (Event.stop now) hinv hs
    have hm : st2.manuallyStopped = true := by
      simp only [step] at hs
      split at hs
      · cases hs
      · cases hs
        rw [stopClick, (evaluateCollected_cases sqrt now _).2.2.2.2.1]
    obtain ⟨hp, hc⟩ := hinv2.stopped hm
    refine ⟨hm, hc, hp, hinv2.agg_le, ?_⟩
    intro id t
    simp [step, hp]

/-- In the session "start, one frame with the level symmetric face, stop" the stop click
runs `aggregateScore` once. -/
theorem aggregations_after_stop :
    (stopClick Rat.sqrt "t"
        (onResults [symmetricFace]
          (startClick (initial false true true "" "" : State ℚ)))).aggregations = 1 := by
  unfold stopClick
  obtain ⟨features, agg, _, _, he⟩ := evaluateCollected_of_length Rat.sqrt "t"
    { onResults [symmetricFace] (startClick (initial false true true "" "" : State ℚ)) with
      startDisabled := false
      stopDisabled := true
      collecting := false
      pending := clearCapture
        (onResults [symmetricFace]
          (startClick (initial false true true "" "" : State ℚ))).captureTimeout
        (onResults [symmetricFace]
          (startClick (initial false true true "" "" : State ℚ))).pending
      manuallyStopped := true }
    (by simp [onResults, startClick, initial])
    (by
      intro lm hlm
      simp [onResults, startClick, initial] at hlm
      rw [hlm, List.length_map, symmetricFace, length_faceOf]
      decide)
  rw [he]
  simp [onResults, startClick, initial]

/-- C9, at a concrete input: the page after a start click, one frame showing the level
symmetric face, and a stop click; `aggregateScore` has run once and no deadline can fire. -/
theorem manual_stop_cancels_deadline_witness :
    Reachable Rat.sqrt
      (stopClick Rat.sqrt "t"
        (onResults [symmetricFace] (startClick (initial false true true "" "" : State ℚ)))) ∧
    (stopClick Rat.sqrt "t"
        (onResults [symmetricFace]
          (startClick (initial false true true "" "" : State ℚ)))).aggregations = 1 ∧
    (stopClick Rat.sqrt "t"
        (onResults [symmetricFace]
          (startClick (initial false true true "" "" : State ℚ)))).aggregations ≤ 1 ∧
    ∀ id now, step Rat.sqrt
      (stopClick Rat.sqrt "t"
        (onResults [symmetricFace] (startClick (initial false true true "" "" : State ℚ))))
      (Event.deadline id now) = none :=
  have hr : Reachable Rat.sqrt
      (stopClick Rat.sqrt "t"
        (onResults [symmetricFace] (startClick (initial false true true "" "" : State ℚ)))) :=
    Reachable.next (Event.stop "t")
      (Reachable.next (Event.frame [symmetricFace])
        (Reachable.next Event.start (Reachable.init false true true "" "") rfl) rfl) rfl
  have hm : (stopClick Rat.sqrt "t"
      (onResults [symmetricFace]
        (startClick (initial false true true "" "" : State ℚ)))).manuallyStopped = true := by
    rw [stopClick, (evaluateCollected_cases Rat.sqrt "t" _).2.2.2.2.1]
  ⟨hr, aggregations_after_stop, (manual_stop_cancels_deadline Rat.sqrt _ hr).1,
   ((manual_stop_cancels_deadline Rat.sqrt _ hr).2.1 hm).2.2⟩

end Session

/-! ## Double precision against exact arithmetic -/

section Doubles

/-- The literal `0.1` denotes 3602879701896397 / 2^55. -/
theorem toDouble_tenth : toDouble (1 / 10) = 3602879701896397 / 36028797018963968 := by
  decide!

/-- `Math.sqrt(2)` is 6369051672525773 / 2^52. -/
theorem sqrtD_two : sqrtD 2 = 6369051672525773 / 4503599627370496 := by
  decide!

/-- Rounding alone moves a score: for the single tuple (0, 0, 0.5) double precision gives
`0.6 - 0.5 = 0.09999999999999998` and the score 3, exact arithmetic the score 4; and the
tuple (0.3, 0, 1.6) scores 0 in double precision too. -/
theorem normalizedD_ne_normalized :
    subD (toDouble (3 / 5)) (1 / 2) = 3602879701896396 / 36028797018963968 ∧
    normalizedD [⟨0, 0, 1 / 2, 1⟩] = 3 ∧
    normalized [(⟨0, 0, 1 / 2, 1⟩ : Features ℚ)] = 4 ∧
    normalizedD [⟨toDouble (3 / 10), 0, toDouble (8 / 5), 1⟩] = 0 := by
  refine ⟨by decide!, by decide!, ?_, by decide!⟩
  norm_num [normalized, raw, score, mean, jsRound]

/-- C8 (counterexample): in double precision three copies of the tuple (0, 0, 0.1) have
mean mouth width 0.10000000000000002 and score 17, a single copy scores 18. -/
theorem constant_sequence_score_rounding :
    meanD (List.replicate 3 (toDouble (1 / 10))) = 7205759403792795 / 72057594037927936 ∧
    Option.map Aggregate.normalized
      (aggregateScoreD (List.replicate 3 ⟨0, 0, toDouble (1 / 10), 1⟩)) = some 17 ∧
    Option.map Aggregate.normalized
      (aggregateScoreD [⟨0, 0, toDouble (1 / 10), 1⟩]) = some 18 := by
  refine ⟨by decide!, by decide!, by decide!⟩

/-- C10 (counterexample): in double precision, on the level face with eye centers
(0.3125, 0.375) and (0.6875, 0.375), `gazeAsym` is -1 when the nose tip is at x = 0.5 and
-1.0000000000000002 when it is at x = 0.22: it moves with the nose alone, and its
absolute value exceeds 1. -/
theorem gazeAsym_moves_with_nose :
    RIGHT_EYE_LEFT < (levelFace (1 / 2)).length ∧
    RIGHT_EYE_LEFT < (levelFace (toDouble (11 / 50))).length ∧
    Option.map Features.gazeAsym (computeFeaturesD (levelFace (1 / 2))) = some (-1) ∧
    Option.map Features.gazeAsym (computeFeaturesD (levelFace (toDouble (11 / 50))))
      = some (-(4503599627370497 / 4503599627370496)) ∧
    (1 : ℚ) < |(-(4503599627370497 / 4503599627370496))| := by
  refine ⟨?_, ?_, by decide!, by decide!, by decide!⟩
  · rw [levelFace, length_faceOf]; decide
  · rw [levelFace, length_faceOf]; decide

end Doubles

end StrokeDemo
